import Mathlib

/- Verification of the gitlab-review-coverage correlation engine (main.go):
a shallow embedding of its BoltDB-backed state, the external GitLab client
interface, and the event handlers that join merge-request events with build
events and post or update a coverage comment. -/

namespace GRC

/-- A commit as returned by the merge-request commits API: its SHA (`ID`)
and the SHAs of its parents (`ParentIDs`). -/
structure Commit where
  id : String
  parentIDs : List String
deriving DecidableEq, Repr

/-- Result of an external GitLab API call: a value, or an error.  The Go
code only compares the returned `err` against `nil`, so error details are
irrelevant and collapsed into a single constructor. -/
inductive ApiResult (α : Type) where
  | ok (val : α)
  | err
deriving DecidableEq, Repr

/-- The external GitLab client (the global `git` of main.go), modelled as a
record of deterministic response functions for the four operations used by
the core: fetching merge-request commits, fetching a job (only its
`Coverage` field is consumed, modelled as the rational it denotes), and
creating / updating a merge-request note. -/
structure GitlabEnv where
  getMergeRequestCommits : Int → Int → ApiResult (List Commit)
  getJob : Int → Int → ApiResult ℚ
  createMergeRequestNote : Int → Int → String → ApiResult Int
  updateMergeRequestNote : Int → Int → Int → String → ApiResult Unit

/-- Contents of a `mr:<id>` bucket (storeInMergeRequestBucket): keys
`beforeSHA`, `lastCommitSHA`, `note_id`; a `none` field is an absent key.
`note_id` is stored as `strconv.Itoa noteID` and read back with
`strconv.Atoi`, an exact inverse, so it is modelled as the integer. -/
structure MRBucket where
  beforeSHA : Option String
  lastCommitSHA : Option String
  note_id : Option Int
deriving DecidableEq, Repr

def MRBucket.empty : MRBucket := ⟨none, none, none⟩

/-- Contents of a `sha:<sha>` bucket (storeCommitData): the optional
`coverage` key and the optional `mrs` sub-bucket.  `coverage` is stored as
`strconv.FormatFloat(c, 'f', -1, 64)` and read back with
`strconv.ParseFloat`, which Go documents as an exact round trip, so it is
modelled as the numeric value.  The `mrs` sub-bucket keys are the decimal
strings `strconv.Itoa mergeRequestID`; they are modelled as the ids
themselves, kept in the BoltDB byte order of those decimal strings. -/
structure CommitBucket where
  coverage : Option ℚ
  mrs : Option (List Int)
deriving DecidableEq, Repr

def CommitBucket.empty : CommitBucket := ⟨none, none⟩

/-- The BoltDB file: per project, the `mr:<id>` buckets and the `sha:<sha>`
buckets (the two key shapes cannot collide, so they are kept as two maps).
`none` is an absent bucket; a read through an absent bucket yields the same
zero values as an empty bucket, exactly as readFromMergeRequestBucket and
readFromCommitBucket return nil without calling their read function. -/
structure Store where
  mr : Int → Int → Option MRBucket
  commit : Int → String → Option CommitBucket

def Store.empty : Store := ⟨fun _ _ => none, fun _ _ => none⟩

/-- CreateBucketIfNotExists for a `mr:<id>` bucket followed by the write
`f` on it: an absent bucket starts empty. -/
def Store.updMR (st : Store) (p mrid : Int) (f : MRBucket → MRBucket) : Store :=
  { st with mr := fun p' m' =>
      if p' = p ∧ m' = mrid then some (f ((st.mr p mrid).getD MRBucket.empty))
      else st.mr p' m' }

/-- CreateBucketIfNotExists for a `sha:<sha>` bucket followed by the write
`f` on it. -/
def Store.updCommit (st : Store) (p : Int) (sha : String) (f : CommitBucket → CommitBucket) : Store :=
  { st with commit := fun p' s' =>
      if p' = p ∧ s' = sha then some (f ((st.commit p sha).getD CommitBucket.empty))
      else st.commit p' s' }

@[simp] theorem Store.updMR_mr (st : Store) (p mrid : Int) (f : MRBucket → MRBucket)
    (p' m' : Int) :
    (st.updMR p mrid f).mr p' m' =
      if p' = p ∧ m' = mrid then some (f ((st.mr p mrid).getD MRBucket.empty))
      else st.mr p' m' := rfl

@[simp] theorem Store.updMR_commit (st : Store) (p mrid : Int) (f : MRBucket → MRBucket) :
    (st.updMR p mrid f).commit = st.commit := rfl

@[simp] theorem Store.updCommit_commit (st : Store) (p : Int) (sha : String)
    (f : CommitBucket → CommitBucket) (p' : Int) (s' : String) :
    (st.updCommit p sha f).commit p' s' =
      if p' = p ∧ s' = sha then some (f ((st.commit p sha).getD CommitBucket.empty))
      else st.commit p' s' := rfl

@[simp] theorem Store.updCommit_mr (st : Store) (p : Int) (sha : String)
    (f : CommitBucket → CommitBucket) :
    (st.updCommit p sha f).mr = st.mr := rfl

/-- storeCommitCoverage (main.go 224-235): put the serialized coverage
under the `coverage` key of the commit bucket, unconditionally. -/
def storeCommitCoverage (p : Int) (sha : String) (coverage : ℚ) (st : Store) : Store :=
  st.updCommit p sha fun b => { b with coverage := some coverage }

/-- BoltDB Put of key `Itoa mrid` into the `mrs` sub-bucket: idempotent on
an existing key, otherwise inserted at its byte-order position among the
decimal-string keys. -/
def insertLinkKey (mrid : Int) : List Int → List Int
  | [] => [mrid]
  | x :: xs =>
    if mrid = x then x :: xs
    else if toString mrid < toString x then mrid :: x :: xs
    else x :: insertLinkKey mrid xs

/-- storeMergeRequestToCommitLink (main.go 237-252): create the `mrs`
sub-bucket of the commit bucket if needed and put the merge-request id
key into it. -/
def storeMergeRequestToCommitLink (p mrid : Int) (lastCommitSHA : String) (st : Store) : Store :=
  st.updCommit p lastCommitSHA fun b =>
    { b with mrs := some (insertLinkKey mrid (b.mrs.getD [])) }

/-- storeMergeRequestData (main.go 298-312): put `beforeSHA` and
`lastCommitSHA` into the merge-request bucket (note_id untouched). -/
def storeMergeRequestData (p mrid : Int) (beforeCommitSHA lastCommitSHA : String) (st : Store) : Store :=
  st.updMR p mrid fun b =>
    { b with beforeSHA := some beforeCommitSHA, lastCommitSHA := some lastCommitSHA }

/-- storeNoteID (main.go 452-460): put `Itoa noteID` under `note_id`. -/
def storeNoteID (p mrid noteID : Int) (st : Store) : Store :=
  st.updMR p mrid fun b => { b with note_id := some noteID }

/-- getNoteID (main.go 479-498): 0 when the bucket or the `note_id` key is
absent, else the stored id.  (The Atoi error path is unreachable: every
stored value is an Itoa output.) -/
def getNoteID (p mrid : Int) (st : Store) : Int :=
  match st.mr p mrid with
  | none => 0
  | some b => b.note_id.getD 0

/-- getCommitCoverage (main.go 314-339): 0 when the bucket or the
`coverage` key is absent, else the stored value.  (The ParseFloat error
path is unreachable: every stored value is a FormatFloat output.) -/
def getCommitCoverage (p : Int) (sha : String) (st : Store) : ℚ :=
  match st.commit p sha with
  | none => 0
  | some b => b.coverage.getD 0

/-- getMergeRequestCommitsData (main.go 500-516): the stored `beforeSHA`
and `lastCommitSHA`, each defaulting to the empty string. -/
def getMergeRequestCommitsData (p mrid : Int) (st : Store) : String × String :=
  match st.mr p mrid with
  | none => ("", "")
  | some b => (b.beforeSHA.getD "", b.lastCommitSHA.getD "")

/-- The bucket iteration of handleLinkedMergeRequests (main.go 180-191):
the keys of the `mrs` sub-bucket in order, Atoi applied to each (modelled
as the ids themselves, see CommitBucket); empty when the commit bucket or
the sub-bucket is absent. -/
def linkedMergeRequestIDs (p : Int) (sha : String) (st : Store) : List Int :=
  match st.commit p sha with
  | none => []
  | some b => b.mrs.getD []

/-- The smallest `k` with `den ∣ 10 ^ k`, when one exists below the search
bound (always the case for the decimal values the program handles). -/
def minDecExp (den : Nat) : Option Nat :=
  (List.range 64).find? fun k => 10 ^ k % den == 0

/-- Left-pad a digit string with zeros to width `k`. -/
def padZeros (s : String) (k : Nat) : String :=
  String.mk (List.replicate (k - s.length) '0') ++ s

/-- strconv.FormatFloat(q, 'f', -1, 64) on the rational the float denotes:
the shortest exact decimal form, no trailing zeros, no decimal point when
the value is integral. -/
def formatShortest (q : ℚ) : String :=
  let sign := if q < 0 then "-" else ""
  let num := q.num.natAbs
  let den := q.den
  match minDecExp den with
  | some k =>
    if k = 0 then sign ++ toString num
    else
      let n := num * (10 ^ k / den)
      sign ++ toString (n / 10 ^ k) ++ "." ++ padZeros (toString (n % 10 ^ k)) k
  | none => sign ++ toString num ++ "/" ++ toString den

/-- noteMessage (main.go 429-450): the comment body as a function of the
two coverage values; a coverage of 0 stands for "absent". -/
def noteMessage (coverageBefore coverageAfter : ℚ) : String :=
  let message :=
    if coverageBefore = 0 ∨ coverageAfter = 0 then
      "Waiting for coverage info..."
    else
      let coverageBeforeStr := formatShortest coverageBefore
      let coverageAfterStr := formatShortest coverageAfter
      if coverageAfter > coverageBefore then
        "Coverage is increased from " ++ coverageBeforeStr ++ "% to " ++
          coverageAfterStr ++ "%! :thumbsup:"
      else if coverageAfter < coverageBefore then
        "Coverage is decreased from " ++ coverageBeforeStr ++ "% to " ++
          coverageAfterStr ++ "% :thumbsdown:"
      else
        "Coverage is the same: " ++ coverageAfterStr ++ "% :muscle:"
  "**Coverage reporter**  \n" ++ message

/-- An outbound note operation issued to GitLab, together with the result
the client returned for it. -/
inductive Call where
  | create (p mrid : Int) (body : String) (result : ApiResult Int)
  | update (p mrid noteID : Int) (body : String) (result : ApiResult Unit)
deriving DecidableEq, Repr

/-- The (project, merge request) a call posts to. -/
def Call.target : Call → Int × Int
  | .create p mrid _ _ => (p, mrid)
  | .update p mrid _ _ _ => (p, mrid)

/-- Result of running one event handler: the final store and the outbound
calls it made, with `panic` marking a Go runtime panic (which, unrecovered
inside a goroutine, kills the whole process). -/
inductive Outcome where
  | ok (st : Store) (calls : List Call)
  | panic (st : Store) (calls : List Call)

def Outcome.store : Outcome → Store
  | .ok st _ => st
  | .panic st _ => st

def Outcome.calls : Outcome → List Call
  | .ok _ cs => cs
  | .panic _ cs => cs

@[simp] theorem Outcome.store_ok (st : Store) (cs : List Call) : (Outcome.ok st cs).store = st := rfl
@[simp] theorem Outcome.calls_ok (st : Store) (cs : List Call) : (Outcome.ok st cs).calls = cs := rfl
@[simp] theorem Outcome.store_panic (st : Store) (cs : List Call) : (Outcome.panic st cs).store = st := rfl
@[simp] theorem Outcome.calls_panic (st : Store) (cs : List Call) : (Outcome.panic st cs).calls = cs := rfl

/-- postOrUpdateCoverageMessage (main.go 363-391): compose the message; if
no note id is stored, create a note and store the returned id — note that
on a create failure postCoverageMessage returns 0 and storeNoteID is still
executed, persisting the absent-sentinel 0 — otherwise update the stored
note (no state change either way). -/
def postOrUpdateCoverageMessage (env : GitlabEnv) (p mrid : Int)
    (coverageBefore coverageAfter : ℚ) (st : Store) : Store × List Call :=
  let message := noteMessage coverageBefore coverageAfter
  let existingNoteID := getNoteID p mrid st
  if existingNoteID = 0 then
    let res := env.createMergeRequestNote p mrid message
    let noteID := match res with | .ok n => n | .err => 0
    (storeNoteID p mrid noteID st, [Call.create p mrid message res])
  else
    (st, [Call.update p mrid existingNoteID message
            (env.updateMergeRequestNote p mrid existingNoteID message)])

/-- handleDiscussionPosting (main.go 341-361): read both coverages (absent
reads as 0, errors only logged) and post or update. -/
def handleDiscussionPosting (env : GitlabEnv) (p mrid : Int)
    (beforeCommitSHA lastCommitSHA : String) (st : Store) : Store × List Call :=
  postOrUpdateCoverageMessage env p mrid
    (getCommitCoverage p beforeCommitSHA st)
    (getCommitCoverage p lastCommitSHA st) st

/-- One iteration of the loop in handleLinkedMergeRequests (main.go
202-221): read the merge request's stored SHAs, skip when either is still
empty, otherwise attempt the report. -/
def reportLinkedMergeRequest (env : GitlabEnv) (p : Int)
    (acc : Store × List Call) (mrid : Int) : Store × List Call :=
  let data := getMergeRequestCommitsData p mrid acc.1
  if data.1.length = 0 ∨ data.2.length = 0 then acc
  else
    let out := handleDiscussionPosting env p mrid data.1 data.2 acc.1
    (out.1, acc.2 ++ out.2)

/-- handleLinkedMergeRequests (main.go 177-222): fan out over the linked
merge-request ids of the commit. -/
def handleLinkedMergeRequests (env : GitlabEnv) (p : Int) (sha : String)
    (st : Store) : Store × List Call :=
  (linkedMergeRequestIDs p sha st).foldl (reportLinkedMergeRequest env p) (st, [])

/-- handleCommitCoverage (main.go 151-175): fetch the job; abort on error;
stop when coverage is exactly 0; otherwise persist the coverage and fan
out to the linked merge requests. -/
def handleCommitCoverage (env : GitlabEnv) (p jobID : Int) (sha : String)
    (st : Store) : Outcome :=
  match env.getJob p jobID with
  | .err => .ok st []
  | .ok coverage =>
    if coverage = 0 then .ok st []
    else
      let st1 := storeCommitCoverage p sha coverage st
      let out := handleLinkedMergeRequests env p sha st1
      .ok out.1 out.2

/-- processMergeRequest (main.go 270-296): fetch the commit list (ordered
most-recent-first); on error log and abort.  `firstCommit` is the source's
name for the last (oldest) element, `lastCommit` for the head.  The
indexings `commits[len(commits)-1]`, `commits[0]` and
`firstCommit.ParentIDs[0]` are unguarded: an empty list or an oldest
commit without parents is a runtime panic.  Otherwise store the two SHAs,
store the reverse link under the head commit, and attempt the report. -/
def processMergeRequest (env : GitlabEnv) (p mrid : Int) (st : Store) : Outcome :=
  match env.getMergeRequestCommits p mrid with
  | .err => .ok st []
  | .ok commits =>
    match commits.getLast?, commits.head? with
    | some firstCommit, some lastCommit =>
      match firstCommit.parentIDs.head? with
      | some commitBeforeMergeRequestSHA =>
        let st1 := storeMergeRequestData p mrid commitBeforeMergeRequestSHA lastCommit.id st
        let st2 := storeMergeRequestToCommitLink p mrid lastCommit.id st1
        let out := handleDiscussionPosting env p mrid commitBeforeMergeRequestSHA lastCommit.id st2
        .ok out.1 out.2
      | none => .panic st []
    | _, _ => .panic st []

/-- The merge-request webhook payload fields the core reads
(handleMergeRequestEvent, main.go 107-123). -/
structure MergeRequestEvent where
  targetProjectID : Int
  iid : Int
deriving DecidableEq, Repr

/-- The build webhook payload fields the core reads (handleBuildEvent,
main.go 125-149). -/
structure BuildEvent where
  projectID : Int
  buildID : Int
  sha : String
  buildStatus : String
deriving DecidableEq, Repr

/-- handleBuildEvent (main.go 125-149): skip unless the build status is
exactly "success", else hand over to handleCommitCoverage. -/
def handleBuildEvent (env : GitlabEnv) (e : BuildEvent) (st : Store) : Outcome :=
  if e.buildStatus ≠ "success" then .ok st []
  else handleCommitCoverage env e.projectID e.buildID e.sha st

/-- handleMergeRequestEvent (main.go 107-123). -/
def handleMergeRequestEvent (env : GitlabEnv) (e : MergeRequestEvent) (st : Store) : Outcome :=
  processMergeRequest env e.targetProjectID e.iid st

/-- The two decoded inbound event kinds (webhookHandler, main.go 97-105). -/
inductive InEvent where
  | mergeRequest (e : MergeRequestEvent)
  | build (e : BuildEvent)
deriving DecidableEq, Repr

def handleEvent (env : GitlabEnv) : InEvent → Store → Outcome
  | .mergeRequest e, st => handleMergeRequestEvent env e st
  | .build e, st => handleBuildEvent env e st

/-- Run a sequence of events one after the other, accumulating the
outbound calls and stopping at a panic (the process is dead). -/
def runEvents (env : GitlabEnv) : List InEvent → Store → Outcome
  | [], st => .ok st []
  | e :: es, st =>
    match handleEvent env e st with
    | .ok st' cs =>
      match runEvents env es st' with
      | .ok st'' cs' => .ok st'' (cs ++ cs')
      | .panic st'' cs' => .panic st'' (cs ++ cs')
    | .panic st' cs => .panic st' cs

/-- The body of `call` if it is a successful create or update addressed to
(p, mrid). -/
def Call.successfulPost (call : Call) (p mrid : Int) : Option String :=
  match call with
  | .create p' m' body (.ok _) => if p' = p ∧ m' = mrid then some body else none
  | .update p' m' _ body (.ok _) => if p' = p ∧ m' = mrid then some body else none
  | _ => none

/-- The text GitLab ends up displaying on (p, mrid) after the run: the
body of the last successful create or update addressed to it. -/
def finalPostedMessage (calls : List Call) (p mrid : Int) : Option String :=
  calls.foldl (fun acc call =>
    match call.successfulPost p mrid with
    | some body => some body
    | none => acc) none

/- Decimal literals as kernel-reducible rationals (Rat.ofScientific is
irreducible, so concrete evaluation goes through mkRat). -/

theorem lit_70_5 : (70.5 : ℚ) = mkRat 705 10 := by rw [Rat.mkRat_eq_div]; norm_num

theorem lit_75_2 : (75.2 : ℚ) = mkRat 752 10 := by rw [Rat.mkRat_eq_div]; norm_num

theorem lit_80_0 : (80.0 : ℚ) = mkRat 80 1 := by rw [Rat.mkRat_eq_div]; norm_num

theorem lit_90_1 : (90.1 : ℚ) = mkRat 901 10 := by rw [Rat.mkRat_eq_div]; norm_num

theorem lit_85_0 : (85.0 : ℚ) = mkRat 85 1 := by rw [Rat.mkRat_eq_div]; norm_num

/-- C6: the composed message is a function of the two coverage values: the
placeholder when either coverage is absent (0); otherwise the increased /
decreased / unchanged message chosen by comparing them, percentages in
shortest exact decimal form; and in particular 70.5 → 75.2 gives the
increased message, 80.0 → 80.0 the unchanged one, 90.1 → 85.0 the
decreased one. -/
theorem note_message_spec :
    (∀ b a : ℚ, b = 0 ∨ a = 0 →
      noteMessage b a = "**Coverage reporter**  \nWaiting for coverage info...") ∧
    (∀ b a : ℚ, b ≠ 0 → a ≠ 0 → b < a →
      noteMessage b a = "**Coverage reporter**  \nCoverage is increased from " ++
        formatShortest b ++ "% to " ++ formatShortest a ++ "%! :thumbsup:") ∧
    (∀ b a : ℚ, b ≠ 0 → a ≠ 0 → a < b →
      noteMessage b a = "**Coverage reporter**  \nCoverage is decreased from " ++
        formatShortest b ++ "% to " ++ formatShortest a ++ "% :thumbsdown:") ∧
    (∀ b a : ℚ, b ≠ 0 → a ≠ 0 → a = b →
      noteMessage b a = "**Coverage reporter**  \nCoverage is the same: " ++
        formatShortest a ++ "% :muscle:") ∧
    noteMessage 70.5 75.2 = "**Coverage reporter**  \nCoverage is increased from 70.5% to 75.2%! :thumbsup:" ∧
    noteMessage 80.0 80.0 = "**Coverage reporter**  \nCoverage is the same: 80% :muscle:" ∧
    noteMessage 90.1 85.0 = "**Coverage reporter**  \nCoverage is decreased from 90.1% to 85% :thumbsdown:" := by
  refine ⟨?_, ?_, ?_, ?_, ?_, ?_, ?_⟩
  · intro b a h
    simp [noteMessage, h]
  · intro b a hb ha h
    have hor : ¬(b = 0 ∨ a = 0) := by tauto
    simp only [noteMessage]
    rw [if_neg hor, if_pos h]
    rfl
  · intro b a hb ha h
    have hor : ¬(b = 0 ∨ a = 0) := by tauto
    simp only [noteMessage]
    rw [if_neg hor, if_neg (lt_asymm h), if_pos h]
    rfl
  · intro b a hb ha h
    subst h
    have hor : ¬(a = 0 ∨ a = 0) := by tauto
    simp only [noteMessage]
    rw [if_neg hor, if_neg (lt_irrefl a), if_neg (lt_irrefl a)]
    rfl
  · rw [lit_70_5, lit_75_2]; decide
  · rw [lit_80_0]; decide
  · rw [lit_90_1, lit_85_0]; decide

/-- C6 witness: the branch clauses applied at concrete coverage values. -/
theorem note_message_spec_witness :
    ((0 : ℚ) = 0 ∨ (60 : ℚ) = 0) ∧
    noteMessage 0 60 = "**Coverage reporter**  \nWaiting for coverage info..." ∧
    ((1 : ℚ) ≠ 0 ∧ (2 : ℚ) ≠ 0 ∧ (1 : ℚ) < 2) ∧
    noteMessage 1 2 = "**Coverage reporter**  \nCoverage is increased from " ++
      formatShortest 1 ++ "% to " ++ formatShortest 2 ++ "%! :thumbsup:" ∧
    noteMessage 2 1 = "**Coverage reporter**  \nCoverage is decreased from " ++
      formatShortest 2 ++ "% to " ++ formatShortest 1 ++ "% :thumbsdown:" ∧
    noteMessage 2 2 = "**Coverage reporter**  \nCoverage is the same: " ++
      formatShortest 2 ++ "% :muscle:" :=
  ⟨Or.inl rfl, note_message_spec.1 0 60 (Or.inl rfl),
    ⟨by decide, by decide, by decide⟩,
    note_message_spec.2.1 1 2 (by decide) (by decide) (by decide),
    note_message_spec.2.2.1 2 1 (by decide) (by decide) (by decide),
    note_message_spec.2.2.2.1 2 2 (by decide) (by decide) rfl⟩

/- Posting never touches the commit buckets: it writes at most note_id in
a merge-request bucket. -/

theorem postOrUpdate_commit (env : GitlabEnv) (p mrid : Int) (b a : ℚ) (st : Store) :
    (postOrUpdateCoverageMessage env p mrid b a st).1.commit = st.commit := by
  unfold postOrUpdateCoverageMessage
  by_cases h : getNoteID p mrid st = 0 <;> simp [h, storeNoteID]

theorem handleDiscussionPosting_commit (env : GitlabEnv) (p mrid : Int)
    (beforeSHA lastSHA : String) (st : Store) :
    (handleDiscussionPosting env p mrid beforeSHA lastSHA st).1.commit = st.commit :=
  postOrUpdate_commit ..

theorem reportLinkedMergeRequest_commit (env : GitlabEnv) (p : Int)
    (acc : Store × List Call) (mrid : Int) :
    (reportLinkedMergeRequest env p acc mrid).1.commit = acc.1.commit := by
  unfold reportLinkedMergeRequest
  by_cases h : (getMergeRequestCommitsData p mrid acc.1).1.length = 0 ∨
      (getMergeRequestCommitsData p mrid acc.1).2.length = 0
  · simp [h]
  · simp [h, handleDiscussionPosting_commit]

theorem foldl_report_commit (env : GitlabEnv) (p : Int) (ids : List Int)
    (acc : Store × List Call) :
    (ids.foldl (reportLinkedMergeRequest env p) acc).1.commit = acc.1.commit := by
  induction ids generalizing acc with
  | nil => rfl
  | cons x xs ih => rw [List.foldl_cons, ih, reportLinkedMergeRequest_commit]

theorem handleLinkedMergeRequests_commit (env : GitlabEnv) (p : Int) (sha : String)
    (st : Store) :
    (handleLinkedMergeRequests env p sha st).1.commit = st.commit :=
  foldl_report_commit ..

/-- C5: a fetched coverage of exactly 0 is a complete no-op: nothing is
persisted (so a stored coverage is never overwritten by a zero or absent
value) and no report generation is triggered for any linked merge
request. -/
theorem zero_coverage_is_noop (env : GitlabEnv) (p jobID : Int) (sha : String)
    (st : Store) (hjob : env.getJob p jobID = .ok 0) :
    handleCommitCoverage env p jobID sha st = .ok st [] := by
  simp [handleCommitCoverage, hjob]

/-- External client returning coverage 0 for every job. -/
def envZero : GitlabEnv :=
  ⟨fun _ _ => .err, fun _ _ => .ok 0, fun _ _ _ => .err, fun _ _ _ _ => .err⟩

/-- C5 witness: a successful build event whose job reports coverage 0
leaves the (empty) store untouched and makes no outbound call. -/
theorem zero_coverage_is_noop_witness :
    envZero.getJob 1 7 = .ok 0 ∧
    handleCommitCoverage envZero 1 7 "abc" Store.empty = .ok Store.empty [] :=
  ⟨rfl, zero_coverage_is_noop envZero 1 7 "abc" Store.empty rfl⟩

/-- External client whose commit-history call returns an empty list. -/
def envEmptyCommits : GitlabEnv :=
  ⟨fun _ _ => .ok [], fun _ _ => .err, fun _ _ _ => .err, fun _ _ _ _ => .err⟩

/-- C2: when the commit-history call succeeds with an empty list,
processMergeRequest reaches the unguarded indexing
`commits[len(commits)-1]` having persisted nothing and made no outbound
call, and panics — in Go an unrecovered panic inside the goroutine kills
the whole process, it is not the logged ResolutionError the specification
describes. -/
theorem empty_commit_list_panics :
    processMergeRequest envEmptyCommits 1 2 Store.empty = .panic Store.empty [] := rfl

/-- External client returning coverage 60 for every job. -/
def envSixty : GitlabEnv :=
  ⟨fun _ _ => .err, fun _ _ => .ok 60, fun _ _ _ => .err, fun _ _ _ _ => .err⟩

/-- A store that already holds coverage 50 for commit "s" of project 1. -/
def stWithCoverage : Store := storeCommitCoverage 1 "s" 50 Store.empty

/-- C4 counterexample: with a non-zero coverage 50 already stored for
(1, "s"), a subsequent successful build event whose job reports 60 DOES
overwrite the stored value — storeCommitCoverage has no
only-if-absent guard. -/
theorem coverage_overwrite_counterexample :
    ((stWithCoverage.commit 1 "s").bind CommitBucket.coverage = some 50) ∧
    (((handleCommitCoverage envSixty 1 7 "s" stWithCoverage).store.commit 1 "s").bind
        CommitBucket.coverage = some 60) ∧
    (50 : ℚ) ≠ 60 := by
  refine ⟨rfl, ?_, by decide⟩
  rfl

/-- C4 amended: a successful build event whose fetched coverage `c` is
non-zero always persists `c` into the commit record, overwriting any
previously stored coverage; only a zero (or absent) fetched value leaves
a stored coverage in place. -/
theorem nonzero_coverage_overwrites (env : GitlabEnv) (p jobID : Int) (sha : String)
    (st : Store) (c : ℚ) (hjob : env.getJob p jobID = .ok c) (hc : c ≠ 0) :
    ((handleCommitCoverage env p jobID sha st).store.commit p sha).bind
      CommitBucket.coverage = some c := by
  simp only [handleCommitCoverage, hjob]
  rw [if_neg hc]
  simp [handleLinkedMergeRequests_commit, storeCommitCoverage]

/-- C4 amended witness: the overwrite evaluated at the counterexample's
input. -/
theorem nonzero_coverage_overwrites_witness :
    envSixty.getJob 1 7 = .ok 60 ∧ (60 : ℚ) ≠ 0 ∧
    ((handleCommitCoverage envSixty 1 7 "s" stWithCoverage).store.commit 1 "s").bind
      CommitBucket.coverage = some 60 :=
  ⟨rfl, by decide, nonzero_coverage_overwrites envSixty 1 7 "s" stWithCoverage 60 rfl (by decide)⟩

/- Posting can write note_id but never the two SHA fields of an existing
merge-request bucket. -/

theorem storeNoteID_mr_proj (pc mc n : Int) (st : Store) (p m : Int) (bk : MRBucket)
    (h : st.mr p m = some bk) :
    ((storeNoteID pc mc n st).mr p m).map (fun b => (b.beforeSHA, b.lastCommitSHA)) =
      some (bk.beforeSHA, bk.lastCommitSHA) := by
  by_cases hk : p = pc ∧ m = mc
  · obtain ⟨rfl, rfl⟩ := hk
    simp [storeNoteID, h]
  · simp [storeNoteID, hk, h]

theorem postOrUpdate_mr_proj (env : GitlabEnv) (pc mc : Int) (b a : ℚ) (st : Store)
    (p m : Int) (bk : MRBucket) (h : st.mr p m = some bk) :
    ((postOrUpdateCoverageMessage env pc mc b a st).1.mr p m).map
      (fun x => (x.beforeSHA, x.lastCommitSHA)) = some (bk.beforeSHA, bk.lastCommitSHA) := by
  by_cases hn : getNoteID pc mc st = 0
  · simp only [postOrUpdateCoverageMessage, hn, if_pos]
    exact storeNoteID_mr_proj pc mc _ st p m bk h
  · simp [postOrUpdateCoverageMessage, hn, h]

/-- C3: for a successful commit-history response (most-recent-first,
non-empty, oldest commit with a parent), processMergeRequest persists
exactly baseSHA = first parent of the oldest element and headSHA = id of
the first element into the merge-request record. -/
theorem resolver_persists_base_and_head (env : GitlabEnv) (p mrid : Int) (st : Store)
    (commits : List Commit) (fc hc : Commit) (p0 : String)
    (hcs : env.getMergeRequestCommits p mrid = .ok commits)
    (hlast : commits.getLast? = some fc)
    (hhead : commits.head? = some hc)
    (hpar : fc.parentIDs.head? = some p0) :
    ((processMergeRequest env p mrid st).store.mr p mrid).map
      (fun b => (b.beforeSHA, b.lastCommitSHA)) = some (some p0, some hc.id) := by
  simp only [processMergeRequest, hcs, hlast, hhead, hpar, Outcome.store_ok]
  rw [handleDiscussionPosting]
  rw [postOrUpdate_mr_proj env p mrid _ _ _ p mrid
    { ((st.mr p mrid).getD MRBucket.empty) with
        beforeSHA := some p0, lastCommitSHA := some hc.id }
    (by simp [storeMergeRequestToCommitLink, storeMergeRequestData])]

/-- External client answering every commit-history request with the single
commit "h" whose parent is "b", and succeeding on note operations. -/
def envOneCommit : GitlabEnv :=
  ⟨fun _ _ => .ok [⟨"h", ["b"]⟩], fun _ _ => .err,
   fun _ _ _ => .ok 11, fun _ _ _ _ => .ok ()⟩

/-- C3 witness: the resolver evaluated on the one-commit history. -/
theorem resolver_persists_base_and_head_witness :
    envOneCommit.getMergeRequestCommits 1 2 = .ok [⟨"h", ["b"]⟩] ∧
    ([(⟨"h", ["b"]⟩ : Commit)].getLast? = some ⟨"h", ["b"]⟩) ∧
    ([(⟨"h", ["b"]⟩ : Commit)].head? = some ⟨"h", ["b"]⟩) ∧
    ((⟨"h", ["b"]⟩ : Commit)).parentIDs.head? = some "b" ∧
    ((processMergeRequest envOneCommit 1 2 Store.empty).store.mr 1 2).map
      (fun b => (b.beforeSHA, b.lastCommitSHA)) = some (some "b", some "h") :=
  ⟨rfl, rfl, rfl, rfl,
    resolver_persists_base_and_head envOneCommit 1 2 Store.empty
      [⟨"h", ["b"]⟩] ⟨"h", ["b"]⟩ ⟨"h", ["b"]⟩ "b" rfl rfl rfl rfl⟩

/-- C8: when no note id is stored and the create-comment call fails, the
attempt persists only the absent-sentinel 0 (getNoteID still returns 0),
so any later attempt for the same merge request again takes the create
path — its single outbound call is a create, not an update. -/
theorem create_failure_retries_create (env env2 : GitlabEnv) (p mrid : Int) (st : Store)
    (b a b2 a2 : ℚ)
    (h0 : getNoteID p mrid st = 0)
    (hfail : env.createMergeRequestNote p mrid (noteMessage b a) = .err) :
    getNoteID p mrid (postOrUpdateCoverageMessage env p mrid b a st).1 = 0 ∧
    (postOrUpdateCoverageMessage env2 p mrid b2 a2
        (postOrUpdateCoverageMessage env p mrid b a st).1).2 =
      [Call.create p mrid (noteMessage b2 a2)
        (env2.createMergeRequestNote p mrid (noteMessage b2 a2))] := by
  have h1 : (postOrUpdateCoverageMessage env p mrid b a st).1 = storeNoteID p mrid 0 st := by
    simp [postOrUpdateCoverageMessage, h0, hfail]
  have h2 : getNoteID p mrid (storeNoteID p mrid 0 st) = 0 := by
    simp [getNoteID, storeNoteID]
  refine ⟨by rw [h1]; exact h2, ?_⟩
  rw [h1]
  simp [postOrUpdateCoverageMessage, h2]

/-- External client whose create-comment call always fails. -/
def envCreateFails : GitlabEnv :=
  ⟨fun _ _ => .err, fun _ _ => .err, fun _ _ _ => .err, fun _ _ _ _ => .ok ()⟩

/-- C8 witness: a failed create on the empty store, then a retry. -/
theorem create_failure_retries_create_witness :
    getNoteID 1 2 Store.empty = 0 ∧
    envCreateFails.createMergeRequestNote 1 2 (noteMessage 0 0) = .err ∧
    (getNoteID 1 2 (postOrUpdateCoverageMessage envCreateFails 1 2 0 0 Store.empty).1 = 0 ∧
      (postOrUpdateCoverageMessage envCreateFails 1 2 0 0
          (postOrUpdateCoverageMessage envCreateFails 1 2 0 0 Store.empty).1).2 =
        [Call.create 1 2 (noteMessage 0 0)
          (envCreateFails.createMergeRequestNote 1 2 (noteMessage 0 0))]) :=
  ⟨rfl, rfl,
    create_failure_retries_create envCreateFails envCreateFails 1 2 Store.empty 0 0 0 0 rfl rfl⟩

/- Evaluation lemmas: each store read over each store write. -/

theorem getCommitCoverage_empty (p : Int) (sha : String) :
    getCommitCoverage p sha Store.empty = 0 := rfl

theorem getNoteID_empty (p m : Int) : getNoteID p m Store.empty = 0 := rfl

theorem getCommitCoverage_storeMergeRequestData (pc mc : Int) (b l : String)
    (st : Store) (p : Int) (sha : String) :
    getCommitCoverage p sha (storeMergeRequestData pc mc b l st) =
      getCommitCoverage p sha st := rfl

theorem getCommitCoverage_storeNoteID (pc mc n : Int) (st : Store) (p : Int) (sha : String) :
    getCommitCoverage p sha (storeNoteID pc mc n st) = getCommitCoverage p sha st := rfl

theorem getCommitCoverage_link (pc mc : Int) (ksha : String) (st : Store)
    (p : Int) (sha : String) :
    getCommitCoverage p sha (storeMergeRequestToCommitLink pc mc ksha st) =
      getCommitCoverage p sha st := by
  unfold storeMergeRequestToCommitLink getCommitCoverage
  by_cases h : p = pc ∧ sha = ksha
  · obtain ⟨rfl, rfl⟩ := h
    have hc : p = p ∧ sha = sha := ⟨rfl, rfl⟩
    simp only [Store.updCommit_commit, if_pos hc]
    cases hb : st.commit p sha <;> simp [hb, CommitBucket.empty]
  · simp [h]

theorem getCommitCoverage_store_same (p : Int) (sha : String) (c : ℚ) (st : Store) :
    getCommitCoverage p sha (storeCommitCoverage p sha c st) = c := by
  simp [storeCommitCoverage, getCommitCoverage]

theorem getCommitCoverage_store_ne (pc : Int) (ksha : String) (c : ℚ) (st : Store)
    (p : Int) (sha : String) (h : ¬(p = pc ∧ sha = ksha)) :
    getCommitCoverage p sha (storeCommitCoverage pc ksha c st) =
      getCommitCoverage p sha st := by
  simp [storeCommitCoverage, getCommitCoverage, h]

theorem getNoteID_storeCommitCoverage (pc : Int) (ksha : String) (c : ℚ) (st : Store)
    (p m : Int) : getNoteID p m (storeCommitCoverage pc ksha c st) = getNoteID p m st := rfl

theorem getNoteID_link (pc mc : Int) (ksha : String) (st : Store) (p m : Int) :
    getNoteID p m (storeMergeRequestToCommitLink pc mc ksha st) = getNoteID p m st := rfl

theorem getNoteID_storeMergeRequestData (pc mc : Int) (b l : String) (st : Store)
    (p m : Int) :
    getNoteID p m (storeMergeRequestData pc mc b l st) = getNoteID p m st := by
  unfold storeMergeRequestData getNoteID
  by_cases h : p = pc ∧ m = mc
  · obtain ⟨rfl, rfl⟩ := h
    have hc : p = p ∧ m = m := ⟨rfl, rfl⟩
    simp only [Store.updMR_mr, if_pos hc]
    cases hb : st.mr p m <;> simp [hb, MRBucket.empty]
  · simp [h]

theorem getNoteID_storeNoteID_same (p m n : Int) (st : Store) :
    getNoteID p m (storeNoteID p m n st) = n := by
  simp [storeNoteID, getNoteID]

theorem getNoteID_storeNoteID_ne (pc mc n : Int) (st : Store) (p m : Int)
    (h : ¬(p = pc ∧ m = mc)) :
    getNoteID p m (storeNoteID pc mc n st) = getNoteID p m st := by
  simp [storeNoteID, getNoteID, h]

theorem getMergeRequestCommitsData_storeCommitCoverage (pc : Int) (ksha : String)
    (c : ℚ) (st : Store) (p m : Int) :
    getMergeRequestCommitsData p m (storeCommitCoverage pc ksha c st) =
      getMergeRequestCommitsData p m st := rfl

theorem getMergeRequestCommitsData_link (pc mc : Int) (ksha : String) (st : Store)
    (p m : Int) :
    getMergeRequestCommitsData p m (storeMergeRequestToCommitLink pc mc ksha st) =
      getMergeRequestCommitsData p m st := rfl

theorem getMergeRequestCommitsData_storeNoteID (pc mc n : Int) (st : Store) (p m : Int) :
    getMergeRequestCommitsData p m (storeNoteID pc mc n st) =
      getMergeRequestCommitsData p m st := by
  unfold storeNoteID getMergeRequestCommitsData
  by_cases h : p = pc ∧ m = mc
  · obtain ⟨rfl, rfl⟩ := h
    have hc : p = p ∧ m = m := ⟨rfl, rfl⟩
    simp only [Store.updMR_mr, if_pos hc]
    cases hb : st.mr p m <;> simp [hb, MRBucket.empty]
  · simp [h]

theorem getMergeRequestCommitsData_storeData_same (p m : Int) (b l : String) (st : Store) :
    getMergeRequestCommitsData p m (storeMergeRequestData p m b l st) = (b, l) := by
  simp [storeMergeRequestData, getMergeRequestCommitsData]

theorem linkedMergeRequestIDs_storeCommitCoverage (p : Int) (sha : String) (c : ℚ)
    (st : Store) :
    linkedMergeRequestIDs p sha (storeCommitCoverage p sha c st) =
      linkedMergeRequestIDs p sha st := by
  unfold storeCommitCoverage linkedMergeRequestIDs
  have hc : p = p ∧ sha = sha := ⟨rfl, rfl⟩
  simp only [Store.updCommit_commit, if_pos hc]
  cases hb : st.commit p sha <;> simp [hb, CommitBucket.empty]

theorem linkedMergeRequestIDs_link_same (p mrid : Int) (sha : String) (st : Store) :
    linkedMergeRequestIDs p sha (storeMergeRequestToCommitLink p mrid sha st) =
      insertLinkKey mrid (linkedMergeRequestIDs p sha st) := by
  unfold storeMergeRequestToCommitLink linkedMergeRequestIDs
  have hc : p = p ∧ sha = sha := ⟨rfl, rfl⟩
  simp only [Store.updCommit_commit, if_pos hc]
  cases hb : st.commit p sha <;> simp [hb, CommitBucket.empty]

theorem linkedMergeRequestIDs_storeMergeRequestData (pc mc : Int) (b l : String)
    (st : Store) (p : Int) (sha : String) :
    linkedMergeRequestIDs p sha (storeMergeRequestData pc mc b l st) =
      linkedMergeRequestIDs p sha st := rfl

theorem linkedMergeRequestIDs_storeNoteID (pc mc n : Int) (st : Store) (p : Int)
    (sha : String) :
    linkedMergeRequestIDs p sha (storeNoteID pc mc n st) =
      linkedMergeRequestIDs p sha st := rfl

/- Every call postOrUpdateCoverageMessage emits is addressed to its own
(project, merge request). -/

theorem postOrUpdate_calls_target (env : GitlabEnv) (p mrid : Int) (b a : ℚ) (st : Store) :
    ∀ call ∈ (postOrUpdateCoverageMessage env p mrid b a st).2, call.target = (p, mrid) := by
  unfold postOrUpdateCoverageMessage
  by_cases h : getNoteID p mrid st = 0 <;> simp [h, Call.target]

theorem postOrUpdate_calls_ne_nil (env : GitlabEnv) (p mrid : Int) (b a : ℚ) (st : Store) :
    (postOrUpdateCoverageMessage env p mrid b a st).2 ≠ [] := by
  unfold postOrUpdateCoverageMessage
  by_cases h : getNoteID p mrid st = 0 <;> simp [h]

/- postOrUpdateCoverageMessage, split by which branch runs. -/

theorem postOrUpdate_create (env : GitlabEnv) (p m : Int) (b a : ℚ) (st : Store)
    (h : getNoteID p m st = 0) :
    postOrUpdateCoverageMessage env p m b a st =
      (storeNoteID p m
        (match env.createMergeRequestNote p m (noteMessage b a) with
          | .ok n => n | .err => 0) st,
       [Call.create p m (noteMessage b a) (env.createMergeRequestNote p m (noteMessage b a))]) := by
  simp [postOrUpdateCoverageMessage, h]

theorem postOrUpdate_update (env : GitlabEnv) (p m : Int) (b a : ℚ) (st : Store)
    (h : getNoteID p m st ≠ 0) :
    postOrUpdateCoverageMessage env p m b a st =
      (st, [Call.update p m (getNoteID p m st) (noteMessage b a)
              (env.updateMergeRequestNote p m (getNoteID p m st) (noteMessage b a))]) := by
  simp [postOrUpdateCoverageMessage, h]

/-- C7: after a merge-request event has resolved and stored headSHA =
hc.id for merge request mrid (from the empty store), a later successful
build event for that very commit — which carries no merge-request id —
reaches mrid through the linkedMergeRequests index and attempts its
report: some outbound note call addressed to (p, mrid) is made. -/
theorem reverse_index_finds_merge_request (env : GitlabEnv) (p mrid jobID : Int)
    (p0 : String) (commits : List Commit) (fc hc : Commit) (c : ℚ)
    (hcs : env.getMergeRequestCommits p mrid = .ok commits)
    (hhead : commits.head? = some hc)
    (hlast : commits.getLast? = some fc)
    (hpar : fc.parentIDs.head? = some p0)
    (hp0 : p0.length ≠ 0) (hsha : hc.id.length ≠ 0)
    (hjob : env.getJob p jobID = .ok c) (hc0 : c ≠ 0) :
    ∃ st1 cs1, processMergeRequest env p mrid Store.empty = .ok st1 cs1 ∧
      ∃ call ∈ (handleBuildEvent env ⟨p, jobID, hc.id, "success"⟩ st1).calls,
        call.target = (p, mrid) := by
  have hgn : getNoteID p mrid
      (storeMergeRequestToCommitLink p mrid hc.id
        (storeMergeRequestData p mrid p0 hc.id Store.empty)) = 0 := by
    rw [getNoteID_link, getNoteID_storeMergeRequestData, getNoteID_empty]
  simp only [processMergeRequest, hcs, hlast, hhead, hpar, handleDiscussionPosting]
  rw [postOrUpdate_create env p mrid _ _ _ hgn]
  refine ⟨_, _, rfl, ?_⟩
  generalize (match env.createMergeRequestNote p mrid _ with
    | ApiResult.ok n => n | ApiResult.err => 0) = n
  simp only [handleBuildEvent, handleCommitCoverage, hjob, Outcome.calls_ok,
    if_neg hc0]
  rw [if_neg (show ¬("success" ≠ "success") by simp)]
  simp only [Outcome.calls_ok]
  have hids : linkedMergeRequestIDs p hc.id
      (storeCommitCoverage p hc.id c (storeNoteID p mrid n
        (storeMergeRequestToCommitLink p mrid hc.id
          (storeMergeRequestData p mrid p0 hc.id Store.empty)))) = [mrid] := by
    rw [linkedMergeRequestIDs_storeCommitCoverage, linkedMergeRequestIDs_storeNoteID,
      linkedMergeRequestIDs_link_same, linkedMergeRequestIDs_storeMergeRequestData]
    rfl
  have hdata : getMergeRequestCommitsData p mrid
      (storeCommitCoverage p hc.id c (storeNoteID p mrid n
        (storeMergeRequestToCommitLink p mrid hc.id
          (storeMergeRequestData p mrid p0 hc.id Store.empty)))) = (p0, hc.id) := by
    rw [getMergeRequestCommitsData_storeCommitCoverage, getMergeRequestCommitsData_storeNoteID,
      getMergeRequestCommitsData_link, getMergeRequestCommitsData_storeData_same]
  unfold handleLinkedMergeRequests
  rw [hids]
  simp only [List.foldl_cons, List.foldl_nil, reportLinkedMergeRequest, hdata]
  rw [if_neg (show ¬((p0, hc.id).1.length = 0 ∨ (p0, hc.id).2.length = 0) by
    simp [hp0, hsha])]
  simp only [handleDiscussionPosting, List.nil_append]
  rcases hl : (postOrUpdateCoverageMessage env p mrid _ _ _).2 with _ | ⟨cl, rest⟩
  · exact absurd hl (postOrUpdate_calls_ne_nil _ _ _ _ _ _)
  · refine ⟨cl, List.mem_cons_self _ _, ?_⟩
    exact postOrUpdate_calls_target _ _ _ _ _ _ cl (by
      rw [hl]
      exact List.mem_cons_self _ _)

/-- External client with the one-commit history "h" (parent "b"),
coverage 60 for every job and succeeding note operations. -/
def envFull : GitlabEnv :=
  ⟨fun _ _ => .ok [⟨"h", ["b"]⟩], fun _ _ => .ok 60,
   fun _ _ _ => .ok 11, fun _ _ _ _ => .ok ()⟩

/-- C7 witness: merge-request event then build event for commit "h". -/
theorem reverse_index_finds_merge_request_witness :
    envFull.getMergeRequestCommits 1 2 = .ok [⟨"h", ["b"]⟩] ∧
    envFull.getJob 1 7 = .ok 60 ∧
    ("b" : String).length ≠ 0 ∧ ("h" : String).length ≠ 0 ∧ (60 : ℚ) ≠ 0 ∧
    (∃ st1 cs1, processMergeRequest envFull 1 2 Store.empty = .ok st1 cs1 ∧
      ∃ call ∈ (handleBuildEvent envFull ⟨1, 7, (⟨"h", ["b"]⟩ : Commit).id, "success"⟩ st1).calls,
        call.target = (1, 2)) :=
  ⟨rfl, rfl, by decide, by decide, by decide,
    reverse_index_finds_merge_request envFull 1 2 7 "b" [⟨"h", ["b"]⟩]
      ⟨"h", ["b"]⟩ ⟨"h", ["b"]⟩ 60 rfl rfl rfl rfl (by decide) (by decide) rfl (by decide)⟩

/- Shape equations for processMergeRequest, one per control path. -/

theorem processMergeRequest_eq_err (env : GitlabEnv) (p m : Int) (st : Store)
    (h : env.getMergeRequestCommits p m = .err) :
    processMergeRequest env p m st = .ok st [] := by
  simp [processMergeRequest, h]

theorem processMergeRequest_eq_panic_nil (env : GitlabEnv) (p m : Int) (st : Store)
    (h : env.getMergeRequestCommits p m = .ok []) :
    processMergeRequest env p m st = .panic st [] := by
  simp [processMergeRequest, h]

theorem processMergeRequest_eq_panic_noparent (env : GitlabEnv) (p m : Int) (st : Store)
    (commits : List Commit) (fc lc : Commit)
    (hcs : env.getMergeRequestCommits p m = .ok commits)
    (hlast : commits.getLast? = some fc) (hhead : commits.head? = some lc)
    (hpar : fc.parentIDs.head? = none) :
    processMergeRequest env p m st = .panic st [] := by
  simp only [processMergeRequest, hcs, hlast, hhead, hpar]

theorem processMergeRequest_eq_resolved (env : GitlabEnv) (p m : Int) (st : Store)
    (commits : List Commit) (fc lc : Commit) (p0 : String)
    (hcs : env.getMergeRequestCommits p m = .ok commits)
    (hlast : commits.getLast? = some fc) (hhead : commits.head? = some lc)
    (hpar : fc.parentIDs.head? = some p0) :
    processMergeRequest env p m st =
      .ok (handleDiscussionPosting env p m p0 lc.id
            (storeMergeRequestToCommitLink p m lc.id
              (storeMergeRequestData p m p0 lc.id st))).1
          (handleDiscussionPosting env p m p0 lc.id
            (storeMergeRequestToCommitLink p m lc.id
              (storeMergeRequestData p m p0 lc.id st))).2 := by
  simp only [processMergeRequest, hcs, hlast, hhead, hpar]

/- Shape equations for handleCommitCoverage. -/

theorem handleCommitCoverage_eq_err (env : GitlabEnv) (p j : Int) (sha : String)
    (st : Store) (h : env.getJob p j = .err) :
    handleCommitCoverage env p j sha st = .ok st [] := by
  simp [handleCommitCoverage, h]

theorem handleCommitCoverage_eq_zero (env : GitlabEnv) (p j : Int) (sha : String)
    (st : Store) (h : env.getJob p j = .ok 0) :
    handleCommitCoverage env p j sha st = .ok st [] := by
  simp [handleCommitCoverage, h]

theorem handleCommitCoverage_eq_store (env : GitlabEnv) (p j : Int) (sha : String)
    (st : Store) (c : ℚ) (h : env.getJob p j = .ok c) (hz : c ≠ 0) :
    handleCommitCoverage env p j sha st =
      .ok (handleLinkedMergeRequests env p sha (storeCommitCoverage p sha c st)).1
          (handleLinkedMergeRequests env p sha (storeCommitCoverage p sha c st)).2 := by
  simp only [handleCommitCoverage, h]
  rw [if_neg hz]

/- A stored non-zero note id N for (p, mrid) is never cleared, no later
create is addressed to (p, mrid), and every later update to (p, mrid)
uses N. -/

def callRespectsNote (p mrid N : Int) : Call → Prop
  | .create pc mc _ _ => ¬(p = pc ∧ mrid = mc)
  | .update pc mc nid _ _ => p = pc → mrid = mc → nid = N

theorem callRespectsNote_postOrUpdate (env : GitlabEnv) (pc mc : Int) (b a : ℚ)
    (st : Store) (p mrid N : Int) (hN : N ≠ 0) (h : getNoteID p mrid st = N) :
    getNoteID p mrid (postOrUpdateCoverageMessage env pc mc b a st).1 = N ∧
    ∀ call ∈ (postOrUpdateCoverageMessage env pc mc b a st).2,
      callRespectsNote p mrid N call := by
  by_cases hk : p = pc ∧ mrid = mc
  · obtain ⟨rfl, rfl⟩ := hk
    rw [postOrUpdate_update env p mrid b a st (by rw [h]; exact hN)]
    refine ⟨h, ?_⟩
    intro call hcl
    simp only [List.mem_singleton] at hcl
    subst hcl
    intro _ _
    exact h
  · by_cases hz : getNoteID pc mc st = 0
    · rw [postOrUpdate_create env pc mc b a st hz]
      refine ⟨?_, ?_⟩
      · rw [getNoteID_storeNoteID_ne pc mc _ st p mrid hk]
        exact h
      · intro call hcl
        simp only [List.mem_singleton] at hcl
        subst hcl
        exact hk
    · rw [postOrUpdate_update env pc mc b a st hz]
      refine ⟨h, ?_⟩
      intro call hcl
      simp only [List.mem_singleton] at hcl
      subst hcl
      intro h1 h2
      exact absurd ⟨h1, h2⟩ hk

theorem callRespectsNote_report (env : GitlabEnv) (pc : Int) (acc : Store × List Call)
    (m : Int) (p mrid N : Int) (hN : N ≠ 0) (h : getNoteID p mrid acc.1 = N)
    (hall : ∀ call ∈ acc.2, callRespectsNote p mrid N call) :
    getNoteID p mrid (reportLinkedMergeRequest env pc acc m).1 = N ∧
    ∀ call ∈ (reportLinkedMergeRequest env pc acc m).2,
      callRespectsNote p mrid N call := by
  unfold reportLinkedMergeRequest
  by_cases hskip : (getMergeRequestCommitsData pc m acc.1).1.length = 0 ∨
      (getMergeRequestCommitsData pc m acc.1).2.length = 0
  · simp only [hskip, ite_true, if_true]
    exact ⟨h, hall⟩
  · simp only [hskip, ite_false, if_false, handleDiscussionPosting]
    obtain ⟨h1, h2⟩ := callRespectsNote_postOrUpdate env pc m _ _ acc.1 p mrid N hN h
    refine ⟨h1, ?_⟩
    intro call hcl
    rcases List.mem_append.1 hcl with hin | hin
    · exact hall call hin
    · exact h2 call hin

theorem callRespectsNote_foldl (env : GitlabEnv) (pc : Int) (ids : List Int)
    (acc : Store × List Call) (p mrid N : Int) (hN : N ≠ 0)
    (h : getNoteID p mrid acc.1 = N)
    (hall : ∀ call ∈ acc.2, callRespectsNote p mrid N call) :
    getNoteID p mrid ((ids.foldl (reportLinkedMergeRequest env pc) acc)).1 = N ∧
    ∀ call ∈ (ids.foldl (reportLinkedMergeRequest env pc) acc).2,
      callRespectsNote p mrid N call := by
  induction ids generalizing acc with
  | nil => exact ⟨h, hall⟩
  | cons x xs ih =>
    rw [List.foldl_cons]
    obtain ⟨h1, h2⟩ := callRespectsNote_report env pc acc x p mrid N hN h hall
    exact ih _ h1 h2

theorem callRespectsNote_handleEvent (env2 : GitlabEnv) (e : InEvent) (st : Store)
    (p mrid N : Int) (hN : N ≠ 0) (h : getNoteID p mrid st = N) :
    getNoteID p mrid (handleEvent env2 e st).store = N ∧
    ∀ call ∈ (handleEvent env2 e st).calls, callRespectsNote p mrid N call := by
  cases e with
  | mergeRequest e =>
    show getNoteID p mrid (processMergeRequest env2 e.targetProjectID e.iid st).store = N ∧
      ∀ call ∈ (processMergeRequest env2 e.targetProjectID e.iid st).calls,
        callRespectsNote p mrid N call
    cases hc : env2.getMergeRequestCommits e.targetProjectID e.iid with
    | err =>
      rw [processMergeRequest_eq_err _ _ _ _ hc]
      exact ⟨h, by simp⟩
    | ok commits =>
      cases commits with
      | nil =>
        rw [processMergeRequest_eq_panic_nil _ _ _ _ hc]
        exact ⟨h, by simp⟩
      | cons c cs =>
        cases hl : (c :: cs).getLast? with
        | none => simp at hl
        | some fc =>
          cases hp : fc.parentIDs.head? with
          | none =>
            rw [processMergeRequest_eq_panic_noparent _ _ _ _ _ fc c hc hl rfl hp]
            exact ⟨h, by simp⟩
          | some p0 =>
            rw [processMergeRequest_eq_resolved _ _ _ _ _ fc c p0 hc hl rfl hp]
            simp only [Outcome.store_ok, Outcome.calls_ok, handleDiscussionPosting]
            have h1 : getNoteID p mrid
                (storeMergeRequestToCommitLink e.targetProjectID e.iid c.id
                  (storeMergeRequestData e.targetProjectID e.iid p0 c.id st)) = N := by
              rw [getNoteID_link, getNoteID_storeMergeRequestData]
              exact h
            exact callRespectsNote_postOrUpdate env2 e.targetProjectID e.iid _ _ _ p mrid N hN h1
  | build e =>
    show getNoteID p mrid (handleBuildEvent env2 e st).store = N ∧
      ∀ call ∈ (handleBuildEvent env2 e st).calls, callRespectsNote p mrid N call
    unfold handleBuildEvent
    by_cases hs : e.buildStatus ≠ "success"
    · rw [if_pos hs]
      exact ⟨h, by simp⟩
    · rw [if_neg hs]
      cases hj : env2.getJob e.projectID e.buildID with
      | err =>
        rw [handleCommitCoverage_eq_err _ _ _ _ _ hj]
        exact ⟨h, by simp⟩
      | ok c =>
        by_cases hz : c = 0
        · subst hz
          rw [handleCommitCoverage_eq_zero _ _ _ _ _ hj]
          exact ⟨h, by simp⟩
        · rw [handleCommitCoverage_eq_store _ _ _ _ _ _ hj hz]
          simp only [Outcome.store_ok, Outcome.calls_ok]
          have h1 : getNoteID p mrid
              (storeCommitCoverage e.projectID e.sha c st) = N := by
            rw [getNoteID_storeCommitCoverage]
            exact h
          exact callRespectsNote_foldl env2 e.projectID _ _ p mrid N hN h1 (by simp)

/-- C9: processing the same merge-request event twice from the empty
store, with the create succeeding the first time with note id N (non-zero
as GitLab ids are): the first processing makes exactly one create call and
stores N; the second makes exactly one update call with the same N and no
create; N is still stored afterwards; and once stored, N is never cleared
by any later event, no later create is addressed to this merge request,
and every later update to it reuses N. -/
theorem idempotent_update (env : GitlabEnv) (p mrid : Int)
    (commits : List Commit) (fc hc : Commit) (p0 : String) (N : Int)
    (hcs : env.getMergeRequestCommits p mrid = .ok commits)
    (hhead : commits.head? = some hc)
    (hlast : commits.getLast? = some fc)
    (hpar : fc.parentIDs.head? = some p0)
    (hcreate : env.createMergeRequestNote p mrid (noteMessage 0 0) = .ok N)
    (hN : N ≠ 0) :
    (processMergeRequest env p mrid Store.empty).calls =
      [Call.create p mrid (noteMessage 0 0) (.ok N)] ∧
    getNoteID p mrid (processMergeRequest env p mrid Store.empty).store = N ∧
    (processMergeRequest env p mrid
        (processMergeRequest env p mrid Store.empty).store).calls =
      [Call.update p mrid N (noteMessage 0 0)
        (env.updateMergeRequestNote p mrid N (noteMessage 0 0))] ∧
    getNoteID p mrid (processMergeRequest env p mrid
        (processMergeRequest env p mrid Store.empty).store).store = N ∧
    (∀ env2 e st, getNoteID p mrid st = N →
      getNoteID p mrid (handleEvent env2 e st).store = N ∧
      ∀ call ∈ (handleEvent env2 e st).calls, callRespectsNote p mrid N call) := by
  have hcb : getCommitCoverage p p0
      (storeMergeRequestToCommitLink p mrid hc.id
        (storeMergeRequestData p mrid p0 hc.id Store.empty)) = 0 := by
    rw [getCommitCoverage_link, getCommitCoverage_storeMergeRequestData,
      getCommitCoverage_empty]
  have hca : getCommitCoverage p hc.id
      (storeMergeRequestToCommitLink p mrid hc.id
        (storeMergeRequestData p mrid p0 hc.id Store.empty)) = 0 := by
    rw [getCommitCoverage_link, getCommitCoverage_storeMergeRequestData,
      getCommitCoverage_empty]
  have hgn : getNoteID p mrid
      (storeMergeRequestToCommitLink p mrid hc.id
        (storeMergeRequestData p mrid p0 hc.id Store.empty)) = 0 := by
    rw [getNoteID_link, getNoteID_storeMergeRequestData, getNoteID_empty]
  rw [processMergeRequest_eq_resolved env p mrid Store.empty commits fc hc p0
    hcs hlast hhead hpar]
  simp only [Outcome.store_ok, Outcome.calls_ok, handleDiscussionPosting, hcb, hca]
  rw [postOrUpdate_create env p mrid 0 0 _ hgn]
  simp only [hcreate]
  refine ⟨trivial, getNoteID_storeNoteID_same p mrid N _, ?_⟩
  have hcb2 : getCommitCoverage p p0
      (storeMergeRequestToCommitLink p mrid hc.id
        (storeMergeRequestData p mrid p0 hc.id
          (storeNoteID p mrid N
            (storeMergeRequestToCommitLink p mrid hc.id
              (storeMergeRequestData p mrid p0 hc.id Store.empty))))) = 0 := by
    rw [getCommitCoverage_link, getCommitCoverage_storeMergeRequestData,
      getCommitCoverage_storeNoteID, hcb]
  have hca2 : getCommitCoverage p hc.id
      (storeMergeRequestToCommitLink p mrid hc.id
        (storeMergeRequestData p mrid p0 hc.id
          (storeNoteID p mrid N
            (storeMergeRequestToCommitLink p mrid hc.id
              (storeMergeRequestData p mrid p0 hc.id Store.empty))))) = 0 := by
    rw [getCommitCoverage_link, getCommitCoverage_storeMergeRequestData,
      getCommitCoverage_storeNoteID, hca]
  have hgn2 : getNoteID p mrid
      (storeMergeRequestToCommitLink p mrid hc.id
        (storeMergeRequestData p mrid p0 hc.id
          (storeNoteID p mrid N
            (storeMergeRequestToCommitLink p mrid hc.id
              (storeMergeRequestData p mrid p0 hc.id Store.empty))))) = N := by
    rw [getNoteID_link, getNoteID_storeMergeRequestData, getNoteID_storeNoteID_same]
  rw [processMergeRequest_eq_resolved env p mrid _ commits fc hc p0 hcs hlast hhead hpar]
  simp only [Outcome.store_ok, Outcome.calls_ok, handleDiscussionPosting, hcb2, hca2]
  rw [postOrUpdate_update env p mrid 0 0 _ (by rw [hgn2]; exact hN), hgn2]
  exact ⟨rfl, rfl, fun env2 e st h => callRespectsNote_handleEvent env2 e st p mrid N hN h⟩
/-- C9 witness: the one-commit history processed twice against a client
whose create returns note id 11. -/
theorem idempotent_update_witness :
    envOneCommit.createMergeRequestNote 1 2 (noteMessage 0 0) = .ok 11 ∧ (11 : Int) ≠ 0 ∧
    ((processMergeRequest envOneCommit 1 2 Store.empty).calls =
        [Call.create 1 2 (noteMessage 0 0) (.ok 11)] ∧
      getNoteID 1 2 (processMergeRequest envOneCommit 1 2 Store.empty).store = 11 ∧
      (processMergeRequest envOneCommit 1 2
          (processMergeRequest envOneCommit 1 2 Store.empty).store).calls =
        [Call.update 1 2 11 (noteMessage 0 0)
          (envOneCommit.updateMergeRequestNote 1 2 11 (noteMessage 0 0))] ∧
      getNoteID 1 2 (processMergeRequest envOneCommit 1 2
          (processMergeRequest envOneCommit 1 2 Store.empty).store).store = 11 ∧
      (∀ env2 e st, getNoteID 1 2 st = 11 →
        getNoteID 1 2 (handleEvent env2 e st).store = 11 ∧
        ∀ call ∈ (handleEvent env2 e st).calls, callRespectsNote 1 2 11 call)) :=
  ⟨rfl, by decide,
    idempotent_update envOneCommit 1 2 [⟨"h", ["b"]⟩] ⟨"h", ["b"]⟩ ⟨"h", ["b"]⟩ "b" 11
      rfl rfl rfl rfl rfl (by decide)⟩

theorem noteMessage_zero_left (a : ℚ) : noteMessage 0 a = noteMessage 0 0 := by
  simp [noteMessage]

theorem postOrUpdate_zero_left (env : GitlabEnv) (p m : Int) (a : ℚ) (st : Store) :
    postOrUpdateCoverageMessage env p m 0 a st =
      postOrUpdateCoverageMessage env p m 0 0 st := by
  unfold postOrUpdateCoverageMessage
  rw [noteMessage_zero_left]

theorem runEvents_pair (env : GitlabEnv) (e1 e2 : InEvent) (st s1 s2 : Store)
    (c1 c2 : List Call)
    (h1 : handleEvent env e1 st = .ok s1 c1) (h2 : handleEvent env e2 s1 = .ok s2 c2) :
    runEvents env [e1, e2] st = .ok s2 (c1 ++ c2) := by
  simp [runEvents, h1, h2]

/- The successful build-event handler, by fan-out shape. -/

theorem handleBuild_zero (env : GitlabEnv) (p jobID : Int) (sha : String) (s : Store)
    (hjob : env.getJob p jobID = .ok 0) :
    handleBuildEvent env ⟨p, jobID, sha, "success"⟩ s = .ok s [] := by
  unfold handleBuildEvent
  rw [if_neg (show ¬("success" ≠ "success") by simp)]
  exact handleCommitCoverage_eq_zero env p jobID sha s hjob

theorem handleBuild_nolinks (env : GitlabEnv) (p jobID : Int) (sha : String) (c : ℚ)
    (s : Store) (hjob : env.getJob p jobID = .ok c) (hc0 : c ≠ 0)
    (hids : linkedMergeRequestIDs p sha (storeCommitCoverage p sha c s) = []) :
    handleBuildEvent env ⟨p, jobID, sha, "success"⟩ s =
      .ok (storeCommitCoverage p sha c s) [] := by
  unfold handleBuildEvent
  rw [if_neg (show ¬("success" ≠ "success") by simp)]
  rw [handleCommitCoverage_eq_store env p jobID sha s c hjob hc0]
  have hz : handleLinkedMergeRequests env p sha (storeCommitCoverage p sha c s) =
      (storeCommitCoverage p sha c s, []) := by
    unfold handleLinkedMergeRequests
    rw [hids]
    rfl
  rw [hz]

theorem handleBuild_fanout_skip (env : GitlabEnv) (p jobID mrid : Int)
    (sha p0 : String) (c : ℚ) (s : Store)
    (hjob : env.getJob p jobID = .ok c) (hc0 : c ≠ 0)
    (hids : linkedMergeRequestIDs p sha (storeCommitCoverage p sha c s) = [mrid])
    (hdata : getMergeRequestCommitsData p mrid (storeCommitCoverage p sha c s) = (p0, sha))
    (hskip : p0.length = 0 ∨ sha.length = 0) :
    handleBuildEvent env ⟨p, jobID, sha, "success"⟩ s =
      .ok (storeCommitCoverage p sha c s) [] := by
  unfold handleBuildEvent
  rw [if_neg (show ¬("success" ≠ "success") by simp)]
  rw [handleCommitCoverage_eq_store env p jobID sha s c hjob hc0]
  have hz : handleLinkedMergeRequests env p sha (storeCommitCoverage p sha c s) =
      (storeCommitCoverage p sha c s, []) := by
    unfold handleLinkedMergeRequests
    rw [hids]
    simp only [List.foldl_cons, List.foldl_nil, reportLinkedMergeRequest, hdata]
    rw [if_pos (by simpa using hskip)]
  rw [hz]

theorem handleBuild_fanout (env : GitlabEnv) (p jobID mrid : Int)
    (sha p0 : String) (c : ℚ) (s : Store)
    (hjob : env.getJob p jobID = .ok c) (hc0 : c ≠ 0)
    (hids : linkedMergeRequestIDs p sha (storeCommitCoverage p sha c s) = [mrid])
    (hdata : getMergeRequestCommitsData p mrid (storeCommitCoverage p sha c s) = (p0, sha))
    (hskip : ¬(p0.length = 0 ∨ sha.length = 0))
    (hcovB : getCommitCoverage p p0 (storeCommitCoverage p sha c s) = 0) :
    handleBuildEvent env ⟨p, jobID, sha, "success"⟩ s =
      .ok (postOrUpdateCoverageMessage env p mrid 0 0 (storeCommitCoverage p sha c s)).1
          (postOrUpdateCoverageMessage env p mrid 0 0 (storeCommitCoverage p sha c s)).2 := by
  unfold handleBuildEvent
  rw [if_neg (show ¬("success" ≠ "success") by simp)]
  rw [handleCommitCoverage_eq_store env p jobID sha s c hjob hc0]
  have hz : handleLinkedMergeRequests env p sha (storeCommitCoverage p sha c s) =
      postOrUpdateCoverageMessage env p mrid 0 0 (storeCommitCoverage p sha c s) := by
    unfold handleLinkedMergeRequests
    rw [hids]
    simp only [List.foldl_cons, List.foldl_nil, reportLinkedMergeRequest, hdata]
    rw [if_neg (by simpa using hskip)]
    simp only [handleDiscussionPosting, hcovB, List.nil_append]
    rw [postOrUpdate_zero_left]
  rw [hz]

/-- C1: starting from the empty store, a merge-request event for (p, mrid)
and a successful build event for its head commit hc.id, processed in
either order, end in the same MergeRequestRecord (baseSHA, headSHA), the
same CommitCoverageRecord (coverage and linkedMergeRequests) for that
commit, and the same final posted message text for (p, mrid).  (p0 ≠ hc.id
says the merge request's base commit differs from its head commit, as in
any real history.) -/
theorem order_independence (env : GitlabEnv) (p mrid jobID : Int) (p0 : String)
    (commits : List Commit) (fc hc : Commit) (c : ℚ)
    (hcs : env.getMergeRequestCommits p mrid = .ok commits)
    (hhead : commits.head? = some hc)
    (hlast : commits.getLast? = some fc)
    (hpar : fc.parentIDs.head? = some p0)
    (hne : p0 ≠ hc.id)
    (hjob : env.getJob p jobID = .ok c) :
    (((runEvents env [InEvent.mergeRequest ⟨p, mrid⟩,
          InEvent.build ⟨p, jobID, hc.id, "success"⟩] Store.empty).store.mr p mrid).map
        (fun b => (b.beforeSHA, b.lastCommitSHA)) =
      ((runEvents env [InEvent.build ⟨p, jobID, hc.id, "success"⟩,
          InEvent.mergeRequest ⟨p, mrid⟩] Store.empty).store.mr p mrid).map
        (fun b => (b.beforeSHA, b.lastCommitSHA))) ∧
    ((runEvents env [InEvent.mergeRequest ⟨p, mrid⟩,
          InEvent.build ⟨p, jobID, hc.id, "success"⟩] Store.empty).store.commit p hc.id =
      (runEvents env [InEvent.build ⟨p, jobID, hc.id, "success"⟩,
          InEvent.mergeRequest ⟨p, mrid⟩] Store.empty).store.commit p hc.id) ∧
    (finalPostedMessage (runEvents env [InEvent.mergeRequest ⟨p, mrid⟩,
          InEvent.build ⟨p, jobID, hc.id, "success"⟩] Store.empty).calls p mrid =
      finalPostedMessage (runEvents env [InEvent.build ⟨p, jobID, hc.id, "success"⟩,
          InEvent.mergeRequest ⟨p, mrid⟩] Store.empty).calls p mrid) := by
  have hPMR : ∀ s : Store, getNoteID p mrid s = 0 → getCommitCoverage p p0 s = 0 →
      handleEvent env (InEvent.mergeRequest ⟨p, mrid⟩) s =
        .ok (storeNoteID p mrid
              (match env.createMergeRequestNote p mrid (noteMessage 0 0) with
                | .ok n => n | .err => 0)
              (storeMergeRequestToCommitLink p mrid hc.id
                (storeMergeRequestData p mrid p0 hc.id s)))
            [Call.create p mrid (noteMessage 0 0)
              (env.createMergeRequestNote p mrid (noteMessage 0 0))] := by
    intro s h1 h2
    show processMergeRequest env p mrid s = _
    rw [processMergeRequest_eq_resolved env p mrid s commits fc hc p0 hcs hlast hhead hpar]
    have hb : getCommitCoverage p p0
        (storeMergeRequestToCommitLink p mrid hc.id
          (storeMergeRequestData p mrid p0 hc.id s)) = 0 := by
      rw [getCommitCoverage_link, getCommitCoverage_storeMergeRequestData, h2]
    have hn : getNoteID p mrid
        (storeMergeRequestToCommitLink p mrid hc.id
          (storeMergeRequestData p mrid p0 hc.id s)) = 0 := by
      rw [getNoteID_link, getNoteID_storeMergeRequestData, h1]
    simp only [handleDiscussionPosting, hb]
    rw [postOrUpdate_create env p mrid _ _ _ hn]
    simp only [noteMessage_zero_left]
  by_cases hc0 : c = 0
  · subst hc0
    have hM := hPMR Store.empty rfl rfl
    rw [runEvents_pair env (InEvent.mergeRequest ⟨p, mrid⟩)
          (InEvent.build ⟨p, jobID, hc.id, "success"⟩) Store.empty _ _ _ _ hM
          (handleBuild_zero env p jobID hc.id _ hjob),
        runEvents_pair env (InEvent.build ⟨p, jobID, hc.id, "success"⟩)
          (InEvent.mergeRequest ⟨p, mrid⟩) Store.empty _ _ _ _
          (handleBuild_zero env p jobID hc.id _ hjob) hM]
    exact ⟨rfl, rfl, by simp⟩
  · have hB1 : handleEvent env (InEvent.build ⟨p, jobID, hc.id, "success"⟩) Store.empty =
        .ok (storeCommitCoverage p hc.id c Store.empty) [] :=
      handleBuild_nolinks env p jobID hc.id c Store.empty hjob hc0
        (by rw [linkedMergeRequestIDs_storeCommitCoverage]; rfl)
    rcases hres : env.createMergeRequestNote p mrid (noteMessage 0 0) with ⟨k⟩ | _
    · -- create succeeds with note id k
      have hPMR2 : ∀ s : Store, getNoteID p mrid s = 0 → getCommitCoverage p p0 s = 0 →
          handleEvent env (InEvent.mergeRequest ⟨p, mrid⟩) s =
            .ok (storeNoteID p mrid k
                  (storeMergeRequestToCommitLink p mrid hc.id
                    (storeMergeRequestData p mrid p0 hc.id s)))
                [Call.create p mrid (noteMessage 0 0) (.ok k)] := by
        intro s h1 h2
        rw [hPMR s h1 h2, hres]
      have hM1 := hPMR2 Store.empty rfl rfl
      have hM2 := hPMR2 (storeCommitCoverage p hc.id c Store.empty) rfl
        (by rw [getCommitCoverage_store_ne p hc.id c Store.empty p p0
              (fun hx => hne hx.2), getCommitCoverage_empty])
      have hids : linkedMergeRequestIDs p hc.id
          (storeCommitCoverage p hc.id c (storeNoteID p mrid k
          (storeMergeRequestToCommitLink p mrid hc.id
            (storeMergeRequestData p mrid p0 hc.id Store.empty)))) = [mrid] := by
        rw [linkedMergeRequestIDs_storeCommitCoverage, linkedMergeRequestIDs_storeNoteID,
          linkedMergeRequestIDs_link_same, linkedMergeRequestIDs_storeMergeRequestData]
        rfl
      have hdata : getMergeRequestCommitsData p mrid
          (storeCommitCoverage p hc.id c (storeNoteID p mrid k
          (storeMergeRequestToCommitLink p mrid hc.id
            (storeMergeRequestData p mrid p0 hc.id Store.empty)))) = (p0, hc.id) := by
        rw [getMergeRequestCommitsData_storeCommitCoverage,
          getMergeRequestCommitsData_storeNoteID, getMergeRequestCommitsData_link,
          getMergeRequestCommitsData_storeData_same]
      by_cases hskip : p0.length = 0 ∨ hc.id.length = 0
      · have hA2 := handleBuild_fanout_skip env p jobID mrid hc.id p0 c
          (storeNoteID p mrid k
          (storeMergeRequestToCommitLink p mrid hc.id
            (storeMergeRequestData p mrid p0 hc.id Store.empty))) hjob hc0 hids hdata hskip
        rw [runEvents_pair env (InEvent.mergeRequest ⟨p, mrid⟩)
              (InEvent.build ⟨p, jobID, hc.id, "success"⟩) Store.empty _ _ _ _ hM1 hA2,
            runEvents_pair env (InEvent.build ⟨p, jobID, hc.id, "success"⟩)
              (InEvent.mergeRequest ⟨p, mrid⟩) Store.empty _ _ _ _ hB1 hM2]
        refine ⟨?_, ?_, by simp⟩
        · simp [storeCommitCoverage, storeNoteID, storeMergeRequestToCommitLink, storeMergeRequestData, Store.empty, MRBucket.empty]
        · simp [storeCommitCoverage, storeNoteID, storeMergeRequestToCommitLink, storeMergeRequestData, Store.empty, CommitBucket.empty, insertLinkKey]
      · have hcovB : getCommitCoverage p p0
            (storeCommitCoverage p hc.id c (storeNoteID p mrid k
          (storeMergeRequestToCommitLink p mrid hc.id
            (storeMergeRequestData p mrid p0 hc.id Store.empty)))) = 0 := by
          rw [getCommitCoverage_store_ne p hc.id c _ p p0 (fun hx => hne hx.2),
            getCommitCoverage_storeNoteID, getCommitCoverage_link,
            getCommitCoverage_storeMergeRequestData, getCommitCoverage_empty]
        have hgnC : getNoteID p mrid
            (storeCommitCoverage p hc.id c (storeNoteID p mrid k
          (storeMergeRequestToCommitLink p mrid hc.id
            (storeMergeRequestData p mrid p0 hc.id Store.empty)))) = k := by
          rw [getNoteID_storeCommitCoverage, getNoteID_storeNoteID_same]
        have hA2 := handleBuild_fanout env p jobID mrid hc.id p0 c
          (storeNoteID p mrid k
          (storeMergeRequestToCommitLink p mrid hc.id
            (storeMergeRequestData p mrid p0 hc.id Store.empty))) hjob hc0 hids hdata hskip hcovB
        by_cases hk : k = 0
        · subst hk
          have hA2s : handleEvent env (InEvent.build ⟨p, jobID, hc.id, "success"⟩)
              (storeNoteID p mrid 0
          (storeMergeRequestToCommitLink p mrid hc.id
            (storeMergeRequestData p mrid p0 hc.id Store.empty))) =
              .ok (storeNoteID p mrid 0
                    (storeCommitCoverage p hc.id c (storeNoteID p mrid 0
          (storeMergeRequestToCommitLink p mrid hc.id
            (storeMergeRequestData p mrid p0 hc.id Store.empty)))))
                  [Call.create p mrid (noteMessage 0 0) (.ok 0)] := by
            show handleBuildEvent env ⟨p, jobID, hc.id, "success"⟩ _ = _
            rw [hA2, postOrUpdate_create env p mrid 0 0 _ hgnC, hres]
          rw [runEvents_pair env (InEvent.mergeRequest ⟨p, mrid⟩)
                (InEvent.build ⟨p, jobID, hc.id, "success"⟩) Store.empty _ _ _ _ hM1 hA2s,
              runEvents_pair env (InEvent.build ⟨p, jobID, hc.id, "success"⟩)
                (InEvent.mergeRequest ⟨p, mrid⟩) Store.empty _ _ _ _ hB1 hM2]
          refine ⟨?_, ?_, ?_⟩
          · simp [storeCommitCoverage, storeNoteID, storeMergeRequestToCommitLink, storeMergeRequestData, Store.empty, MRBucket.empty]
          · simp [storeCommitCoverage, storeNoteID, storeMergeRequestToCommitLink, storeMergeRequestData, Store.empty, CommitBucket.empty, insertLinkKey]
          · simp [finalPostedMessage, Call.successfulPost]
        · have hA2s : handleEvent env (InEvent.build ⟨p, jobID, hc.id, "success"⟩)
              (storeNoteID p mrid k
          (storeMergeRequestToCommitLink p mrid hc.id
            (storeMergeRequestData p mrid p0 hc.id Store.empty))) =
              .ok (storeCommitCoverage p hc.id c (storeNoteID p mrid k
          (storeMergeRequestToCommitLink p mrid hc.id
            (storeMergeRequestData p mrid p0 hc.id Store.empty))))
                  [Call.update p mrid k (noteMessage 0 0)
                    (env.updateMergeRequestNote p mrid k (noteMessage 0 0))] := by
            show handleBuildEvent env ⟨p, jobID, hc.id, "success"⟩ _ = _
            rw [hA2, postOrUpdate_update env p mrid 0 0 _ (by rw [hgnC]; exact hk), hgnC]
          rw [runEvents_pair env (InEvent.mergeRequest ⟨p, mrid⟩)
                (InEvent.build ⟨p, jobID, hc.id, "success"⟩) Store.empty _ _ _ _ hM1 hA2s,
              runEvents_pair env (InEvent.build ⟨p, jobID, hc.id, "success"⟩)
                (InEvent.mergeRequest ⟨p, mrid⟩) Store.empty _ _ _ _ hB1 hM2]
          refine ⟨?_, ?_, ?_⟩
          · simp [storeCommitCoverage, storeNoteID, storeMergeRequestToCommitLink, storeMergeRequestData, Store.empty, MRBucket.empty]
          · simp [storeCommitCoverage, storeNoteID, storeMergeRequestToCommitLink, storeMergeRequestData, Store.empty, CommitBucket.empty, insertLinkKey]
          · rcases env.updateMergeRequestNote p mrid k (noteMessage 0 0) with u | _ <;>
              simp [finalPostedMessage, Call.successfulPost]
    · -- create fails
      have hPMR2 : ∀ s : Store, getNoteID p mrid s = 0 → getCommitCoverage p p0 s = 0 →
          handleEvent env (InEvent.mergeRequest ⟨p, mrid⟩) s =
            .ok (storeNoteID p mrid 0
                  (storeMergeRequestToCommitLink p mrid hc.id
                    (storeMergeRequestData p mrid p0 hc.id s)))
                [Call.create p mrid (noteMessage 0 0) ApiResult.err] := by
        intro s h1 h2
        rw [hPMR s h1 h2, hres]
      have hM1 := hPMR2 Store.empty rfl rfl
      have hM2 := hPMR2 (storeCommitCoverage p hc.id c Store.empty) rfl
        (by rw [getCommitCoverage_store_ne p hc.id c Store.empty p p0
              (fun hx => hne hx.2), getCommitCoverage_empty])
      have hids : linkedMergeRequestIDs p hc.id
          (storeCommitCoverage p hc.id c (storeNoteID p mrid 0
          (storeMergeRequestToCommitLink p mrid hc.id
            (storeMergeRequestData p mrid p0 hc.id Store.empty)))) = [mrid] := by
        rw [linkedMergeRequestIDs_storeCommitCoverage, linkedMergeRequestIDs_storeNoteID,
          linkedMergeRequestIDs_link_same, linkedMergeRequestIDs_storeMergeRequestData]
        rfl
      have hdata : getMergeRequestCommitsData p mrid
          (storeCommitCoverage p hc.id c (storeNoteID p mrid 0
          (storeMergeRequestToCommitLink p mrid hc.id
            (storeMergeRequestData p mrid p0 hc.id Store.empty)))) = (p0, hc.id) := by
        rw [getMergeRequestCommitsData_storeCommitCoverage,
          getMergeRequestCommitsData_storeNoteID, getMergeRequestCommitsData_link,
          getMergeRequestCommitsData_storeData_same]
      by_cases hskip : p0.length = 0 ∨ hc.id.length = 0
      · have hA2 := handleBuild_fanout_skip env p jobID mrid hc.id p0 c
          (storeNoteID p mrid 0
          (storeMergeRequestToCommitLink p mrid hc.id
            (storeMergeRequestData p mrid p0 hc.id Store.empty))) hjob hc0 hids hdata hskip
        rw [runEvents_pair env (InEvent.mergeRequest ⟨p, mrid⟩)
              (InEvent.build ⟨p, jobID, hc.id, "success"⟩) Store.empty _ _ _ _ hM1 hA2,
            runEvents_pair env (InEvent.build ⟨p, jobID, hc.id, "success"⟩)
              (InEvent.mergeRequest ⟨p, mrid⟩) Store.empty _ _ _ _ hB1 hM2]
        refine ⟨?_, ?_, by simp⟩
        · simp [storeCommitCoverage, storeNoteID, storeMergeRequestToCommitLink, storeMergeRequestData, Store.empty, MRBucket.empty]
        · simp [storeCommitCoverage, storeNoteID, storeMergeRequestToCommitLink, storeMergeRequestData, Store.empty, CommitBucket.empty, insertLinkKey]
      · have hcovB : getCommitCoverage p p0
            (storeCommitCoverage p hc.id c (storeNoteID p mrid 0
          (storeMergeRequestToCommitLink p mrid hc.id
            (storeMergeRequestData p mrid p0 hc.id Store.empty)))) = 0 := by
          rw [getCommitCoverage_store_ne p hc.id c _ p p0 (fun hx => hne hx.2),
            getCommitCoverage_storeNoteID, getCommitCoverage_link,
            getCommitCoverage_storeMergeRequestData, getCommitCoverage_empty]
        have hgnC : getNoteID p mrid
            (storeCommitCoverage p hc.id c (storeNoteID p mrid 0
          (storeMergeRequestToCommitLink p mrid hc.id
            (storeMergeRequestData p mrid p0 hc.id Store.empty)))) = 0 := by
          rw [getNoteID_storeCommitCoverage, getNoteID_storeNoteID_same]
        have hA2 := handleBuild_fanout env p jobID mrid hc.id p0 c
          (storeNoteID p mrid 0
          (storeMergeRequestToCommitLink p mrid hc.id
            (storeMergeRequestData p mrid p0 hc.id Store.empty))) hjob hc0 hids hdata hskip hcovB
        have hA2s : handleEvent env (InEvent.build ⟨p, jobID, hc.id, "success"⟩)
            (storeNoteID p mrid 0
          (storeMergeRequestToCommitLink p mrid hc.id
            (storeMergeRequestData p mrid p0 hc.id Store.empty))) =
            .ok (storeNoteID p mrid 0
                  (storeCommitCoverage p hc.id c (storeNoteID p mrid 0
          (storeMergeRequestToCommitLink p mrid hc.id
            (storeMergeRequestData p mrid p0 hc.id Store.empty)))))
                [Call.create p mrid (noteMessage 0 0) ApiResult.err] := by
          show handleBuildEvent env ⟨p, jobID, hc.id, "success"⟩ _ = _
          rw [hA2, postOrUpdate_create env p mrid 0 0 _ hgnC, hres]
        rw [runEvents_pair env (InEvent.mergeRequest ⟨p, mrid⟩)
              (InEvent.build ⟨p, jobID, hc.id, "success"⟩) Store.empty _ _ _ _ hM1 hA2s,
            runEvents_pair env (InEvent.build ⟨p, jobID, hc.id, "success"⟩)
              (InEvent.mergeRequest ⟨p, mrid⟩) Store.empty _ _ _ _ hB1 hM2]
        refine ⟨?_, ?_, ?_⟩
        · simp [storeCommitCoverage, storeNoteID, storeMergeRequestToCommitLink, storeMergeRequestData, Store.empty, MRBucket.empty]
        · simp [storeCommitCoverage, storeNoteID, storeMergeRequestToCommitLink, storeMergeRequestData, Store.empty, CommitBucket.empty, insertLinkKey]
        · simp [finalPostedMessage, Call.successfulPost]

/-- C1 witness: both orders evaluated for the one-commit history with
coverage 60. -/
theorem order_independence_witness :
    envFull.getMergeRequestCommits 1 2 = .ok [⟨"h", ["b"]⟩] ∧
    envFull.getJob 1 7 = .ok 60 ∧ ("b" : String) ≠ "h" ∧
    ((((runEvents envFull [InEvent.mergeRequest ⟨1, 2⟩,
          InEvent.build ⟨1, 7, "h", "success"⟩] Store.empty).store.mr 1 2).map
        (fun b => (b.beforeSHA, b.lastCommitSHA)) =
      ((runEvents envFull [InEvent.build ⟨1, 7, "h", "success"⟩,
          InEvent.mergeRequest ⟨1, 2⟩] Store.empty).store.mr 1 2).map
        (fun b => (b.beforeSHA, b.lastCommitSHA))) ∧
    ((runEvents envFull [InEvent.mergeRequest ⟨1, 2⟩,
          InEvent.build ⟨1, 7, "h", "success"⟩] Store.empty).store.commit 1 "h" =
      (runEvents envFull [InEvent.build ⟨1, 7, "h", "success"⟩,
          InEvent.mergeRequest ⟨1, 2⟩] Store.empty).store.commit 1 "h") ∧
    (finalPostedMessage (runEvents envFull [InEvent.mergeRequest ⟨1, 2⟩,
          InEvent.build ⟨1, 7, "h", "success"⟩] Store.empty).calls 1 2 =
      finalPostedMessage (runEvents envFull [InEvent.build ⟨1, 7, "h", "success"⟩,
          InEvent.mergeRequest ⟨1, 2⟩] Store.empty).calls 1 2)) :=
  ⟨rfl, rfl, by decide,
    order_independence envFull 1 2 7 "b" [⟨"h", ["b"]⟩] ⟨"h", ["b"]⟩ ⟨"h", ["b"]⟩ 60
      rfl rfl rfl rfl (by decide) rfl⟩

end GRC
